import Mathlib

/-!
Verification of the room-state synchronization core of a VR collaboration
space (source file `main.py`, class `EnhancedMultilingualVRRoom`).

The Python class is embedded shallowly: the mutable object state becomes the
`Room` structure, every command method becomes a pure state-transforming
function, and Python floats are modelled by exact rationals (the source's
`distance_to` square root is expressed through `Real.sqrt` of the computable
squared distance in the theorems).  Wall-clock timestamps (`datetime.now()`)
are abstracted to `Nat` arguments supplied by the caller; purely
presentational data (UI translation tables, country flags, emoji status
strings, the Flask/SocketIO web layer) is outside the modelled core and does
not influence any modelled observable.  Python's insertion-ordered `dict` is
modelled as an association list with in-place overwrite on an existing key.
-/

namespace VR

/-- Seven supported language codes, from `class Language(Enum)`. -/
inductive Language where
  | english
  | turkish
  | spanish
  | french
  | german
  | italian
  | chinese
deriving DecidableEq

/-- String value of a language enum member (`Language.ENGLISH = "en"`, ...). -/
def Language.value : Language → String
  | .english => "en"
  | .turkish => "tr"
  | .spanish => "es"
  | .french => "fr"
  | .german => "de"
  | .italian => "it"
  | .chinese => "zh"

/-- Moderation actions, from `class ModerationAction(Enum)`. -/
inductive ModerationAction where
  | none
  | warning
  | mute
  | timeout
  | remove
deriving DecidableEq

/-- The 3D position and rotation value type (`@dataclass VRPosition`), over
exact rationals. -/
structure VRPosition where
  x : ℚ
  y : ℚ
  z : ℚ
  rotation_x : ℚ := 0
  rotation_y : ℚ := 0
  rotation_z : ℚ := 0
deriving DecidableEq

/-- Squared distance between two positions: the radicand of
`VRPosition.distance_to`, whose source body is
`((self.x - other.x)**2 + (self.y - other.y)**2 + (self.z - other.z)**2)**0.5`.
The source's distance is `Real.sqrt` of this value; the theorems state the
square-root form explicitly, while this computable square is what the
embedded operations compare against squared thresholds. -/
def distSq (a b : VRPosition) : ℚ :=
  (a.x - b.x) ^ 2 + (a.y - b.y) ^ 2 + (a.z - b.z) ^ 2

/-- A VR gesture (`@dataclass VRGesture`); the `timestamp` field of the
source is presentation metadata and is abstracted away. -/
structure VRGesture where
  gesture_type : String
  hand : String
  intensity : ℚ
  duration : ℚ
deriving DecidableEq

/-- A participant (`@dataclass Participant`).  The source's `join_time`
timestamp and the cosmetic `country_flag` (derived from the language by
`__post_init__`) are presentation metadata and are not modelled. -/
structure Participant where
  user_id : String
  name : String
  preferred_language : Language
  vr_position : VRPosition
  is_muted : Bool := false
  is_speaking : Bool := false
  avatar_id : String
  recent_gestures : List VRGesture := []
deriving DecidableEq

/-- Payload of a transcript entry.  The source stores free-form dictionaries;
the constructors below carry exactly the fields each call site of
`log_event_for_ai` supplies (presentation-only fields such as the translated
reaction string and the emoji status messages are omitted; no modelled
observable reads them).  `proximity` stores the squared distance (the source
stores the float square root of it). -/
inductive EventData where
  | userJoined (user_id name language : String)
  | positionUpdate (user_id : String) (pos : VRPosition)
  | proximity (user1 user2 : String) (dist_sq : ℚ)
  | gesture (user_id user gesture : String)
  | recordingToggle (state : Bool)
  | info (message : String)
  | chat (user_id message : String)
deriving DecidableEq

/-- The `entry["data"].get("message", "")` access of `_check_moderation`:
only `chat` and `info` payloads carry a `message` key in the modelled data. -/
def EventData.message : EventData → String
  | .chat _ m => m
  | .info m => m
  | _ => ""

/-- The `entry["data"].get("user_id", "unknown")` access of
`_check_moderation`. -/
def EventData.userId : EventData → String
  | .chat u _ => u
  | .userJoined u _ _ => u
  | .positionUpdate u _ => u
  | .gesture u _ _ => u
  | _ => "unknown"

/-- One entry of `session_transcript`; the `timestamp` field of the source is
abstracted away (it never influences control flow). -/
structure TranscriptEntry where
  etype : String
  data : EventData
deriving DecidableEq

/-- One entry of `moderation_log` (timestamp abstracted). -/
structure ModerationRecord where
  user_id : String
  message : String
  action : ModerationAction
  reason : String
deriving DecidableEq

/-- One `proximity_alert` notification pushed to subscribers by
`_check_proximity_interactions`; `dist_sq` is the squared distance (the
source emits the rounded square root of it). -/
structure ProximityAlert where
  user1 : String
  user2 : String
  dist_sq : ℚ
deriving DecidableEq

/-- Event-type strings used by the source's `log_event_for_ai` call sites. -/
def evJoined : String := "user_joined"

def evPosition : String := "position_update"

def evProximity : String := "proximity"

def evGesture : String := "gesture"

def evRecording : String := "recording_toggle"

def evInfo : String := "info"

def evChat : String := "chat"

/-- The moderation reason string of `_check_moderation`. -/
def toxicReason : String := "Toxic language detected"

/-- The info message seeded by `handle_toggle_recording`. -/
def recStartedMsg : String := "Recording started"

/-- The placeholder message used when saving an empty transcript. -/
def noEventsMsg : String := "No events recorded yet"

/-- The toxicity denylist of `_check_moderation`. -/
def toxic_keywords : List String :=
  ["hate", "stupid", "idiot", "shut up", "useless", "dumb"]

/-- Lower-casing as in Python's `str.lower()` (ASCII-relevant here),
character by character over the string's character list. -/
def lowerStr (s : String) : String :=
  String.mk (s.data.map Char.toLower)

/-- Whether `needle` is an initial segment of `hay` (character lists). -/
def isPrefixOfChars : List Char → List Char → Bool
  | [], _ => true
  | _ :: _, [] => false
  | a :: as, b :: bs => a == b && isPrefixOfChars as bs

/-- Whether `needle` occurs as a contiguous substring of the character list. -/
def containsSubChars (needle : List Char) : List Char → Bool
  | [] => isPrefixOfChars needle []
  | c :: cs => isPrefixOfChars needle (c :: cs) || containsSubChars needle cs

/-- Python's `word in message` substring test. -/
def containsWord (message w : String) : Bool :=
  containsSubChars w.toList message.toList

/-- Lookup in an insertion-ordered dictionary (first, and by the key
invariant only, binding for the key). -/
def dictGet {α : Type} : List (String × α) → String → Option α
  | [], _ => none
  | (k, v) :: rest, key => if k = key then some v else dictGet rest key

/-- `dict[key] = value`: overwrite in place if the key is present (keeping
its insertion position, as Python dicts do), otherwise append. -/
def dictSet {α : Type} : List (String × α) → String → α → List (String × α)
  | [], key, v => [(key, v)]
  | (k, w) :: rest, key, v =>
    if k = key then (key, v) :: rest else (k, w) :: dictSet rest key v

/-- In-place mutation of the value stored under a key (models Python
attribute assignment on the object fetched from the dict). -/
def dictUpdate {α : Type} (l : List (String × α)) (key : String) (f : α → α) :
    List (String × α) :=
  l.map fun q => if q.1 = key then (q.1, f q.2) else q

/-- Python's `lst[-n:]` slice: the last `n` elements, order preserved. -/
def takeLast {α : Type} (n : Nat) (l : List α) : List α :=
  l.drop (l.length - n)

/-- The mutable state of `EnhancedMultilingualVRRoom`.  The translation and
reaction tables, the Flask/SocketIO objects, and the unused `messages` list
are presentation plumbing and are not part of the modelled state;
`gesture_recognition` and `spatial_audio` are settings never read by the
modelled operations but kept for fidelity. -/
structure Room where
  room_id : String
  room_name : String
  participants : List (String × Participant)
  gestures : List VRGesture
  is_active : Bool
  start_time : Option Nat
  ai_moderation_enabled : Bool
  ai_note_taking_enabled : Bool
  video_recording_enabled : Bool
  session_transcript : List TranscriptEntry
  moderation_log : List ModerationRecord
  recording_start_time : Option Nat
  project_context : String
  proximity_chat_enabled : Bool
  gesture_recognition : Bool
  spatial_audio : Bool
deriving DecidableEq

/-- The `__init__` state of `EnhancedMultilingualVRRoom(room_id, room_name)`. -/
def initRoom (rid rname : String) : Room where
  room_id := rid
  room_name := rname
  participants := []
  gestures := []
  is_active := false
  start_time := none
  ai_moderation_enabled := true
  ai_note_taking_enabled := true
  video_recording_enabled := false
  session_transcript := []
  moderation_log := []
  recording_start_time := none
  project_context := "Global Localization Project Kickoff"
  proximity_chat_enabled := true
  gesture_recognition := true
  spatial_audio := true

/-- Whether any of the three AI feature flags is enabled: the condition of
the early-return guard of `log_event_for_ai`
(`not (self.ai_note_taking_enabled or self.ai_moderation_enabled or
self.video_recording_enabled)`). -/
def anyAIFlag (room : Room) : Bool :=
  room.ai_note_taking_enabled || room.ai_moderation_enabled ||
    room.video_recording_enabled

/-- The `_check_moderation(entry)` method: on a `chat` entry whose lowered
message contains any denylist phrase, append exactly one warning record;
otherwise do nothing. -/
def check_moderation (room : Room) (entry : TranscriptEntry) : Room :=
  if entry.etype = evChat then
    let message := lowerStr entry.data.message
    if toxic_keywords.any (fun w => containsWord message w) then
      { room with
        moderation_log := room.moderation_log ++
          [{ user_id := entry.data.userId
             message := message
             action := ModerationAction.warning
             reason := toxicReason }] }
    else room
  else room

/-- The `log_event_for_ai(event_type, data)` method: no-op unless some AI
flag is enabled; otherwise append the entry to the transcript and, when
moderation is enabled, run the moderation check on it. -/
def log_event_for_ai (room : Room) (event_type : String) (data : EventData) :
    Room :=
  if anyAIFlag room then
    let entry : TranscriptEntry := { etype := event_type, data := data }
    let room1 :=
      { room with session_transcript := room.session_transcript ++ [entry] }
    if room1.ai_moderation_enabled then check_moderation room1 entry else room1
  else room

/-- The participant object constructed by `add_participant` (the avatar id is
`f"avatar_{len(self.participants) + 1}"`, computed before insertion). -/
def mkParticipant (room : Room) (uid name : String) (lang : Language)
    (x y z : ℚ) : Participant where
  user_id := uid
  name := name
  preferred_language := lang
  vr_position := ⟨x, y, z, 0, 0, 0⟩
  is_muted := false
  is_speaking := false
  avatar_id := "avatar_" ++ toString (room.participants.length + 1)
  recent_gestures := []

/-- The `add_participant` method: store the fresh participant under its id
(overwriting any existing binding, as the source performs a plain
`self.participants[user_id] = participant` with no duplicate check), activate
the room on the first join, and log `user_joined`.  The welcome-message
printing and web notifications are presentation only. -/
def add_participant (room : Room) (uid name : String) (lang : Language)
    (x y z : ℚ) (now : Nat) : Room :=
  let participant := mkParticipant room uid name lang x y z
  let room1 := { room with participants := dictSet room.participants uid participant }
  let room2 :=
    if room1.is_active then room1
    else { room1 with is_active := true, start_time := some now }
  log_event_for_ai room2 evJoined (EventData.userJoined uid name lang.value)

/-- Name of the mover, as `_check_proximity_interactions` fetches it via
`self.participants[user_id]` (the empty-string branch is unreachable from the
one caller, which checks presence first). -/
def moverName (room : Room) (uid : String) : String :=
  match dictGet room.participants uid with
  | some p => p.name
  | none => ""

/-- The participant loop of `_check_proximity_interactions`: for every other
participant, if the distance from the mover's new position is under the
3.0-unit threshold (compared in squares: `distSq < 9`) and proximity chat is
enabled, push a `proximity_alert` and log a `proximity` event.  No
``already near'' state is consulted, so pairs re-fire on every move. -/
def proximity_loop (uid mn : String) (pos : VRPosition) :
    List (String × Participant) → Room → Room × List ProximityAlert
  | [], room => (room, [])
  | q :: rest, room =>
    if q.1 = uid then proximity_loop uid mn pos rest room
    else if distSq pos q.2.vr_position < 9 ∧ room.proximity_chat_enabled then
      let room1 := log_event_for_ai room evProximity
        (EventData.proximity mn q.2.name (distSq pos q.2.vr_position))
      let r := proximity_loop uid mn pos rest room1
      (r.1, { user1 := mn
              user2 := q.2.name
              dist_sq := distSq pos q.2.vr_position } :: r.2)
    else proximity_loop uid mn pos rest room

/-- The `_check_proximity_interactions(user_id, old_pos, new_pos)` method
(`old_pos` is received but never used by the source's body). -/
def check_proximity_interactions (room : Room) (uid : String)
    (new_pos : VRPosition) : Room × List ProximityAlert :=
  proximity_loop uid (moverName room uid) new_pos room.participants room

/-- Result of `update_participant_position`: the new room state, the boolean
the method returns, and the `proximity_alert` notifications pushed while it
ran. -/
structure MoveResult where
  room : Room
  ok : Bool
  alerts : List ProximityAlert
deriving DecidableEq

/-- The in-place position assignment
`self.participants[user_id].vr_position = new_pos` of
`update_participant_position`. -/
def posSetter (np : VRPosition) (p : Participant) : Participant :=
  { p with vr_position := np }

/-- The `update_participant_position` method: unknown ids fail fast (return
`False`) with no other effect; otherwise store the new position, log
`position_update`, and run the proximity check from the new position. -/
def update_participant_position (room : Room) (uid : String)
    (x y z rx ry rz : ℚ) : MoveResult :=
  if (dictGet room.participants uid).isSome then
    let new_pos : VRPosition := ⟨x, y, z, rx, ry, rz⟩
    let room1 := { room with
      participants := dictUpdate room.participants uid (posSetter new_pos) }
    let room2 := log_event_for_ai room1 evPosition
      (EventData.positionUpdate uid new_pos)
    let r := check_proximity_interactions room2 uid new_pos
    { room := r.1, ok := true, alerts := r.2 }
  else { room := room, ok := false, alerts := [] }

/-- The gesture object constructed by `perform_gesture`
(`VRGesture(gesture_type, hand, intensity, duration=1.0)`). -/
def mkGesture (gesture_type hand : String) (intensity : ℚ) : VRGesture where
  gesture_type := gesture_type
  hand := hand
  intensity := intensity
  duration := 1

/-- The `perform_gesture` method: unknown ids fail fast (return `False`);
otherwise append the gesture to the global log and to the participant's
history capped at the last 5 (`recent_gestures[-5:]`), mark the participant
speaking, and log a `gesture` event.  The 2-second timer that later clears
`is_speaking` is deferred concurrent work and is not part of the modelled
synchronous step; the translated reaction string it prints and broadcasts is
presentation only. -/
def perform_gesture (room : Room) (uid gesture_type hand : String)
    (intensity : ℚ) : Room × Bool :=
  match dictGet room.participants uid with
  | none => (room, false)
  | some participant =>
    let gesture := mkGesture gesture_type hand intensity
    let room1 := { room with gestures := room.gestures ++ [gesture] }
    let room2 := { room1 with
      participants := dictUpdate room1.participants uid
        fun p => { p with
          recent_gestures := takeLast 5 (p.recent_gestures ++ [gesture])
          is_speaking := true } }
    let room3 := log_event_for_ai room2 evGesture
      (EventData.gesture uid participant.name gesture_type)
    (room3, true)

/-- The `handle_toggle_recording` handler: flip the flag; on enable record
the start time and seed the transcript with a single `info` entry if it was
empty; always log a `recording_toggle` event. -/
def toggle_recording (room : Room) (now : Nat) : Room :=
  let room1 := { room with
    video_recording_enabled := !room.video_recording_enabled }
  let room2 :=
    if room1.video_recording_enabled then
      let room3 := { room1 with recording_start_time := some now }
      if room3.session_transcript.isEmpty then
        { room3 with session_transcript :=
            [{ etype := evInfo, data := EventData.info recStartedMsg }] }
      else room3
    else room1
  log_event_for_ai room2 evRecording
    (EventData.recordingToggle room2.video_recording_enabled)

/-- The JSON document built by `handle_save_recording` (identical dictionary
construction in the `/api/save_recording` route); the `start_time`/`end_time`
timestamps are abstracted, and writing the file is external I/O outside the
modelled core. -/
structure RecordingData where
  room_id : String
  room_name : String
  project_context : String
  start_time : Option Nat
  participants : List String
  transcript : List TranscriptEntry
  moderation_log : List ModerationRecord
deriving DecidableEq

/-- The recording payload of `handle_save_recording`: the
`self.session_transcript or [placeholder]` expression substitutes a single
placeholder `info` entry when the transcript list is empty (falsy). -/
def handle_save_recording (room : Room) : RecordingData where
  room_id := room.room_id
  room_name := room.room_name
  project_context := room.project_context
  start_time := room.start_time
  participants := room.participants.map fun q => q.2.name
  transcript :=
    if room.session_transcript.isEmpty then
      [{ etype := evInfo, data := EventData.info noEventsMsg }]
    else room.session_transcript
  moderation_log := room.moderation_log

/-- The modelled inbound commands of the room session (`join`, `move`,
`performGesture`, `toggleRecording`).  Constructors carry the wall-clock
value wherever the source calls `datetime.now()` into a retained field. -/
inductive Op where
  | add (uid name : String) (lang : Language) (x y z : ℚ) (now : Nat)
  | move (uid : String) (x y z rx ry rz : ℚ)
  | gesture (uid gesture_type hand : String) (intensity : ℚ)
  | toggleRec (now : Nat)

/-- State transition of one modelled command. -/
def applyOp (room : Room) : Op → Room
  | .add uid name lang x y z now => add_participant room uid name lang x y z now
  | .move uid x y z rx ry rz =>
    (update_participant_position room uid x y z rx ry rz).room
  | .gesture uid g h i => (perform_gesture room uid g h i).1
  | .toggleRec now => toggle_recording room now

/-- Run a sequence of modelled commands. -/
def runOps (room : Room) : List Op → Room
  | [] => room
  | op :: ops => runOps (applyOp room op) ops

/-! ## Helper lemmas on the dictionary model -/

theorem dictGet_dictSet_self {α : Type} (l : List (String × α)) (k : String)
    (v : α) : dictGet (dictSet l k v) k = some v := by
  induction l with
  | nil => simp [dictGet, dictSet]
  | cons q rest ih =>
    by_cases h : q.1 = k
    · simp [dictGet, dictSet, h]
    · simp [dictGet, dictSet, h, ih]

theorem dictSet_length_of_mem {α : Type} (l : List (String × α)) (k : String)
    (v : α) (h : (dictGet l k).isSome = true) :
    (dictSet l k v).length = l.length := by
  induction l with
  | nil => simp [dictGet] at h
  | cons q rest ih =>
    by_cases hq : q.1 = k
    · simp [dictSet, hq]
    · simp [dictGet, hq] at h
      simp [dictSet, hq, ih h]

theorem dictSet_keys_of_mem {α : Type} (l : List (String × α)) (k : String)
    (v : α) (h : (dictGet l k).isSome = true) :
    (dictSet l k v).map Prod.fst = l.map Prod.fst := by
  induction l with
  | nil => simp [dictGet] at h
  | cons q rest ih =>
    by_cases hq : q.1 = k
    · simp [dictSet, hq]
    · simp [dictGet, hq] at h
      simp [dictSet, hq, ih h]

theorem mem_dictSet {α : Type} (l : List (String × α)) (k : String) (v : α)
    (q : String × α) (h : q ∈ dictSet l k v) : q = (k, v) ∨ q ∈ l := by
  induction l with
  | nil =>
    simp [dictSet] at h
    exact Or.inl h
  | cons p rest ih =>
    by_cases hp : p.1 = k
    · simp [dictSet, hp] at h
      rcases h with h | h
      · exact Or.inl h
      · exact Or.inr (List.mem_cons_of_mem _ h)
    · simp [dictSet, hp] at h
      rcases h with h | h
      · exact Or.inr (by simp [h])
      · rcases ih h with h1 | h1
        · exact Or.inl h1
        · exact Or.inr (List.mem_cons_of_mem _ h1)

theorem dictGet_dictUpdate {α : Type} (l : List (String × α)) (k : String)
    (f : α → α) : dictGet (dictUpdate l k f) k = (dictGet l k).map f := by
  induction l with
  | nil => simp [dictGet, dictUpdate]
  | cons q rest ih =>
    obtain ⟨a, b⟩ := q
    by_cases hq : a = k
    · subst hq
      show dictGet ((if a = a then (a, f b) else (a, b)) :: dictUpdate rest a f)
        a = Option.map f (dictGet ((a, b) :: rest) a)
      rw [if_pos rfl]
      simp [dictGet]
    · show dictGet ((if a = k then (a, f b) else (a, b)) :: dictUpdate rest k f)
        k = Option.map f (dictGet ((a, b) :: rest) k)
      rw [if_neg hq]
      simp [dictGet, hq, ih]

theorem dictUpdate_not_mem {α : Type} (l : List (String × α)) (k : String)
    (f : α → α) (h : dictGet l k = none) : dictUpdate l k f = l := by
  induction l with
  | nil => simp [dictUpdate]
  | cons q rest ih =>
    by_cases hq : q.1 = k
    · simp [dictGet, hq] at h
    · simp [dictGet, hq] at h
      simp [dictUpdate, hq] at ih ⊢
      exact ih h

theorem filter_dictUpdate {α : Type} (l : List (String × α)) (k : String)
    (f : α → α) :
    (dictUpdate l k f).filter (fun q => q.1 ≠ k) =
      l.filter (fun q => q.1 ≠ k) := by
  induction l with
  | nil => simp [dictUpdate]
  | cons q rest ih =>
    by_cases hq : q.1 = k
    · simp [dictUpdate, List.filter_cons, hq] at ih ⊢
      exact ih
    · simp [dictUpdate, List.filter_cons, hq] at ih ⊢
      exact ih

theorem takeLast_length_le {α : Type} (n : Nat) (l : List α) :
    (takeLast n l).length ≤ n := by
  unfold takeLast
  rw [List.length_drop]
  omega

theorem takeLast_of_length_le {α : Type} (n : Nat) (l : List α)
    (h : l.length ≤ n) : takeLast n l = l := by
  unfold takeLast
  have : l.length - n = 0 := by omega
  rw [this, List.drop_zero]

/-! ## Shape lemmas: which fields each internal step can touch -/

theorem check_moderation_shape (room : Room) (e : TranscriptEntry) :
    ∃ ml, check_moderation room e = { room with moderation_log := ml } := by
  simp only [check_moderation]
  split
  · split
    · exact ⟨_, rfl⟩
    · exact ⟨room.moderation_log, rfl⟩
  · exact ⟨room.moderation_log, rfl⟩

theorem check_moderation_not_chat (room : Room) (e : TranscriptEntry)
    (h : e.etype ≠ evChat) : check_moderation room e = room := by
  unfold check_moderation
  rw [if_neg h]

theorem log_event_shape (room : Room) (t : String) (d : EventData) :
    ∃ ts ml, log_event_for_ai room t d =
      { room with session_transcript := ts, moderation_log := ml } := by
  simp only [log_event_for_ai]
  split
  · split
    · obtain ⟨ml, hm⟩ := check_moderation_shape
        { room with session_transcript :=
            room.session_transcript ++ [{ etype := t, data := d }] }
        { etype := t, data := d }
      exact ⟨_, ml, hm⟩
    · exact ⟨_, room.moderation_log, rfl⟩
  · exact ⟨room.session_transcript, room.moderation_log, rfl⟩

theorem log_event_fields (room : Room) (t : String) (d : EventData) :
    (log_event_for_ai room t d).participants = room.participants ∧
    (log_event_for_ai room t d).is_active = room.is_active ∧
    (log_event_for_ai room t d).start_time = room.start_time ∧
    (log_event_for_ai room t d).proximity_chat_enabled =
      room.proximity_chat_enabled ∧
    (log_event_for_ai room t d).ai_moderation_enabled =
      room.ai_moderation_enabled := by
  obtain ⟨ts, ml, h⟩ := log_event_shape room t d
  rw [h]
  exact ⟨rfl, rfl, rfl, rfl, rfl⟩

theorem log_event_transcript (room : Room) (t : String) (d : EventData) :
    (log_event_for_ai room t d).session_transcript =
      if anyAIFlag room then
        room.session_transcript ++ [{ etype := t, data := d }]
      else room.session_transcript := by
  simp only [log_event_for_ai]
  by_cases hf : anyAIFlag room = true
  · simp only [if_pos hf]
    split
    · obtain ⟨ml, hm⟩ := check_moderation_shape
        { room with session_transcript :=
            room.session_transcript ++ [{ etype := t, data := d }] }
        { etype := t, data := d }
      rw [hm]
    · rfl
  · simp only [if_neg hf]

theorem log_event_mod_log_of_ne (room : Room) (t : String) (d : EventData)
    (h : t ≠ evChat) :
    (log_event_for_ai room t d).moderation_log = room.moderation_log := by
  simp only [log_event_for_ai]
  split
  · split
    · rw [check_moderation_not_chat _ _ h]
    · rfl
  · rfl

theorem log_event_shape_not_chat (room : Room) (t : String) (d : EventData)
    (h : t ≠ evChat) :
    ∃ ts, log_event_for_ai room t d =
      { room with session_transcript := ts } := by
  obtain ⟨ts, ml, hs⟩ := log_event_shape room t d
  refine ⟨ts, ?_⟩
  have hm : ml = room.moderation_log := by
    have h2 := log_event_mod_log_of_ne room t d h
    rw [hs] at h2
    exact h2
  rw [hm] at hs
  exact hs

theorem proximity_loop_fields (uid mn : String) (pos : VRPosition) :
    ∀ (l : List (String × Participant)) (room : Room),
    (proximity_loop uid mn pos l room).1.participants = room.participants ∧
    (proximity_loop uid mn pos l room).1.is_active = room.is_active ∧
    (proximity_loop uid mn pos l room).1.start_time = room.start_time ∧
    (proximity_loop uid mn pos l room).1.moderation_log =
      room.moderation_log ∧
    (proximity_loop uid mn pos l room).1.proximity_chat_enabled =
      room.proximity_chat_enabled := by
  intro l
  induction l with
  | nil =>
    intro room
    exact ⟨rfl, rfl, rfl, rfl, rfl⟩
  | cons q rest ih =>
    intro room
    simp only [proximity_loop]
    split
    · exact ih room
    · split
      · dsimp only
        have h1 := ih (log_event_for_ai room evProximity
          (EventData.proximity mn q.2.name (distSq pos q.2.vr_position)))
        have h2 := log_event_fields room evProximity
          (EventData.proximity mn q.2.name (distSq pos q.2.vr_position))
        have h3 := log_event_mod_log_of_ne room evProximity
          (EventData.proximity mn q.2.name (distSq pos q.2.vr_position))
          (by decide)
        refine ⟨?_, ?_, ?_, ?_, ?_⟩
        · rw [h1.1, h2.1]
        · rw [h1.2.1, h2.2.1]
        · rw [h1.2.2.1, h2.2.2.1]
        · rw [h1.2.2.2.1, h3]
        · rw [h1.2.2.2.2, h2.2.2.2.1]
      · exact ih room

theorem proximity_loop_alerts (uid mn : String) (pos : VRPosition) :
    ∀ (l : List (String × Participant)) (room : Room),
    room.proximity_chat_enabled = true →
    (proximity_loop uid mn pos l room).2 =
      (l.filter fun q => q.1 ≠ uid).filterMap fun q =>
        if distSq pos q.2.vr_position < 9 then
          some { user1 := mn, user2 := q.2.name,
                 dist_sq := distSq pos q.2.vr_position }
        else none := by
  intro l
  induction l with
  | nil =>
    intro room _
    rfl
  | cons q rest ih =>
    intro room h
    simp only [proximity_loop]
    by_cases hq : q.1 = uid
    · rw [if_pos hq, ih room h]
      simp [List.filter_cons, hq]
    · rw [if_neg hq]
      by_cases hd : distSq pos q.2.vr_position < 9
      · rw [if_pos ⟨hd, h⟩]
        have h1 : (log_event_for_ai room evProximity
            (EventData.proximity mn q.2.name
              (distSq pos q.2.vr_position))).proximity_chat_enabled = true := by
          rw [(log_event_fields _ _ _).2.2.2.1]
          exact h
        have h2 := ih _ h1
        simp [List.filter_cons, List.filterMap_cons, hq, hd, h2]
      · rw [if_neg (fun hc => hd hc.1)]
        rw [ih room h]
        simp [List.filter_cons, List.filterMap_cons, hq, hd]

theorem add_participant_participants (room : Room) (uid name : String)
    (lang : Language) (x y z : ℚ) (now : Nat) :
    (add_participant room uid name lang x y z now).participants =
      dictSet room.participants uid (mkParticipant room uid name lang x y z) := by
  simp only [add_participant]
  rw [(log_event_fields _ _ _).1]
  split <;> rfl

theorem add_participant_active_of_active (room : Room) (uid name : String)
    (lang : Language) (x y z : ℚ) (now : Nat) (h : room.is_active = true) :
    (add_participant room uid name lang x y z now).is_active = true ∧
    (add_participant room uid name lang x y z now).start_time =
      room.start_time := by
  simp only [add_participant]
  split
  · constructor
    · rw [(log_event_fields _ _ _).2.1]
      exact h
    · rw [(log_event_fields _ _ _).2.2.1]
  · rename_i hc
    exact absurd h hc

theorem add_participant_activates (room : Room) (uid name : String)
    (lang : Language) (x y z : ℚ) (now : Nat) (h : room.is_active = false) :
    (add_participant room uid name lang x y z now).is_active = true ∧
    (add_participant room uid name lang x y z now).start_time = some now := by
  simp only [add_participant]
  split
  · rename_i hc
    rw [h] at hc
    exact absurd hc Bool.false_ne_true
  · constructor
    · rw [(log_event_fields _ _ _).2.1]
    · rw [(log_event_fields _ _ _).2.2.1]

theorem update_position_participants (room : Room) (uid : String)
    (x y z rx ry rz : ℚ) :
    (update_participant_position room uid x y z rx ry rz).room.participants =
      dictUpdate room.participants uid (posSetter ⟨x, y, z, rx, ry, rz⟩) := by
  simp only [update_participant_position, check_proximity_interactions]
  split
  · dsimp only
    rw [(proximity_loop_fields _ _ _ _ _).1, (log_event_fields _ _ _).1]
  · rename_i hc
    have hnone : dictGet room.participants uid = none := by
      cases hO : dictGet room.participants uid with
      | none => rfl
      | some p =>
        rw [hO] at hc
        simp at hc
    dsimp only
    rw [dictUpdate_not_mem _ _ _ hnone]

theorem update_position_fields (room : Room) (uid : String)
    (x y z rx ry rz : ℚ) :
    (update_participant_position room uid x y z rx ry rz).room.is_active =
      room.is_active ∧
    (update_participant_position room uid x y z rx ry rz).room.start_time =
      room.start_time ∧
    (update_participant_position room uid x y z rx ry rz).room.moderation_log =
      room.moderation_log ∧
    (update_participant_position room uid x y z rx ry
      rz).room.proximity_chat_enabled = room.proximity_chat_enabled := by
  simp only [update_participant_position, check_proximity_interactions]
  split
  · dsimp only
    refine ⟨?_, ?_, ?_, ?_⟩
    · rw [(proximity_loop_fields _ _ _ _ _).2.1, (log_event_fields _ _ _).2.1]
    · rw [(proximity_loop_fields _ _ _ _ _).2.2.1,
        (log_event_fields _ _ _).2.2.1]
    · rw [(proximity_loop_fields _ _ _ _ _).2.2.2.1,
        log_event_mod_log_of_ne _ _ _ (by decide)]
    · rw [(proximity_loop_fields _ _ _ _ _).2.2.2.2,
        (log_event_fields _ _ _).2.2.2.1]
  · exact ⟨rfl, rfl, rfl, rfl⟩

theorem perform_gesture_participants (room : Room)
    (uid gesture_type hand : String) (intensity : ℚ) :
    (perform_gesture room uid gesture_type hand intensity).1.participants =
      dictUpdate room.participants uid
        (fun p => { p with
          recent_gestures :=
            takeLast 5 (p.recent_gestures ++ [mkGesture gesture_type hand intensity])
          is_speaking := true }) := by
  simp only [perform_gesture]
  split
  · rename_i hc
    dsimp only
    rw [dictUpdate_not_mem _ _ _ hc]
  · dsimp only
    rw [(log_event_fields _ _ _).1]

theorem perform_gesture_fields (room : Room) (uid gesture_type hand : String)
    (intensity : ℚ) :
    (perform_gesture room uid gesture_type hand intensity).1.is_active =
      room.is_active ∧
    (perform_gesture room uid gesture_type hand intensity).1.start_time =
      room.start_time ∧
    (perform_gesture room uid gesture_type hand intensity).1.moderation_log =
      room.moderation_log ∧
    (perform_gesture room uid gesture_type hand
      intensity).1.proximity_chat_enabled = room.proximity_chat_enabled := by
  simp only [perform_gesture]
  split
  · exact ⟨rfl, rfl, rfl, rfl⟩
  · dsimp only
    refine ⟨?_, ?_, ?_, ?_⟩
    · rw [(log_event_fields _ _ _).2.1]
    · rw [(log_event_fields _ _ _).2.2.1]
    · rw [log_event_mod_log_of_ne _ _ _ (by decide)]
    · rw [(log_event_fields _ _ _).2.2.2.1]

theorem toggle_recording_fields (room : Room) (now : Nat) :
    (toggle_recording room now).participants = room.participants ∧
    (toggle_recording room now).is_active = room.is_active ∧
    (toggle_recording room now).start_time = room.start_time ∧
    (toggle_recording room now).proximity_chat_enabled =
      room.proximity_chat_enabled ∧
    (toggle_recording room now).moderation_log = room.moderation_log := by
  simp only [toggle_recording]
  refine ⟨?_, ?_, ?_, ?_, ?_⟩
  · rw [(log_event_fields _ _ _).1]
    split
    · split <;> rfl
    · rfl
  · rw [(log_event_fields _ _ _).2.1]
    split
    · split <;> rfl
    · rfl
  · rw [(log_event_fields _ _ _).2.2.1]
    split
    · split <;> rfl
    · rfl
  · rw [(log_event_fields _ _ _).2.2.2.1]
    split
    · split <;> rfl
    · rfl
  · rw [log_event_mod_log_of_ne _ _ _ (by decide)]
    split
    · split <;> rfl
    · rfl

/-! ## Command-level preservation lemmas -/

theorem applyOp_moderation_log (room : Room) (op : Op) :
    (applyOp room op).moderation_log = room.moderation_log := by
  cases op with
  | add uid name lang x y z now =>
    simp only [applyOp, add_participant]
    rw [log_event_mod_log_of_ne _ _ _ (by decide)]
    split <;> rfl
  | move uid x y z rx ry rz =>
    exact (update_position_fields room uid x y z rx ry rz).2.2.1
  | gesture uid g hd i =>
    exact (perform_gesture_fields room uid g hd i).2.2.1
  | toggleRec now =>
    exact (toggle_recording_fields room now).2.2.2.2

theorem applyOp_prox_flag (room : Room) (op : Op) :
    (applyOp room op).proximity_chat_enabled = room.proximity_chat_enabled := by
  cases op with
  | add uid name lang x y z now =>
    simp only [applyOp, add_participant]
    rw [(log_event_fields _ _ _).2.2.2.1]
    split <;> rfl
  | move uid x y z rx ry rz =>
    exact (update_position_fields room uid x y z rx ry rz).2.2.2
  | gesture uid g hd i =>
    exact (perform_gesture_fields room uid g hd i).2.2.2
  | toggleRec now =>
    exact (toggle_recording_fields room now).2.2.2.1

theorem applyOp_active_mono (room : Room) (op : Op)
    (h : room.is_active = true) :
    (applyOp room op).is_active = true ∧
    (applyOp room op).start_time = room.start_time := by
  cases op with
  | add uid name lang x y z now =>
    exact add_participant_active_of_active room uid name lang x y z now h
  | move uid x y z rx ry rz =>
    refine ⟨?_, (update_position_fields room uid x y z rx ry rz).2.1⟩
    simp only [applyOp]
    rw [(update_position_fields room uid x y z rx ry rz).1]
    exact h
  | gesture uid g hd i =>
    refine ⟨?_, (perform_gesture_fields room uid g hd i).2.1⟩
    simp only [applyOp]
    rw [(perform_gesture_fields room uid g hd i).1]
    exact h
  | toggleRec now =>
    refine ⟨?_, (toggle_recording_fields room now).2.2.1⟩
    simp only [applyOp]
    rw [(toggle_recording_fields room now).2.1]
    exact h

theorem applyOp_gesture_bound (room : Room) (op : Op)
    (hinv : ∀ q ∈ room.participants, q.2.recent_gestures.length ≤ 5) :
    ∀ q ∈ (applyOp room op).participants,
      q.2.recent_gestures.length ≤ 5 := by
  cases op with
  | add uid name lang x y z now =>
    intro q hq
    rw [show applyOp room (Op.add uid name lang x y z now) =
        add_participant room uid name lang x y z now from rfl,
      add_participant_participants] at hq
    rcases mem_dictSet _ _ _ _ hq with h | h
    · rw [h]
      simp [mkParticipant]
    · exact hinv q h
  | move uid x y z rx ry rz =>
    intro q hq
    rw [show applyOp room (Op.move uid x y z rx ry rz) =
        (update_participant_position room uid x y z rx ry rz).room from rfl,
      update_position_participants] at hq
    unfold dictUpdate at hq
    rcases List.mem_map.mp hq with ⟨q0, hq0, hmap⟩
    by_cases hk : q0.1 = uid
    · rw [if_pos hk] at hmap
      rw [← hmap]
      exact hinv q0 hq0
    · rw [if_neg hk] at hmap
      rw [← hmap]
      exact hinv q0 hq0
  | gesture uid g hd i =>
    intro q hq
    rw [show applyOp room (Op.gesture uid g hd i) =
        (perform_gesture room uid g hd i).1 from rfl,
      perform_gesture_participants] at hq
    unfold dictUpdate at hq
    rcases List.mem_map.mp hq with ⟨q0, hq0, hmap⟩
    by_cases hk : q0.1 = uid
    · rw [if_pos hk] at hmap
      rw [← hmap]
      exact takeLast_length_le 5 _
    · rw [if_neg hk] at hmap
      rw [← hmap]
      exact hinv q0 hq0
  | toggleRec now =>
    intro q hq
    rw [show applyOp room (Op.toggleRec now) = toggle_recording room now
        from rfl, (toggle_recording_fields room now).1] at hq
    exact hinv q hq

theorem runOps_moderation_log :
    ∀ (ops : List Op) (room : Room),
    (runOps room ops).moderation_log = room.moderation_log := by
  intro ops
  induction ops with
  | nil =>
    intro room
    rfl
  | cons op rest ih =>
    intro room
    simp only [runOps]
    rw [ih, applyOp_moderation_log]

theorem runOps_prox_flag :
    ∀ (ops : List Op) (room : Room),
    (runOps room ops).proximity_chat_enabled =
      room.proximity_chat_enabled := by
  intro ops
  induction ops with
  | nil =>
    intro room
    rfl
  | cons op rest ih =>
    intro room
    simp only [runOps]
    rw [ih, applyOp_prox_flag]

theorem runOps_gesture_bound :
    ∀ (ops : List Op) (room : Room),
    (∀ q ∈ room.participants, q.2.recent_gestures.length ≤ 5) →
    ∀ q ∈ (runOps room ops).participants,
      q.2.recent_gestures.length ≤ 5 := by
  intro ops
  induction ops with
  | nil =>
    intro room h
    exact h
  | cons op rest ih =>
    intro room h
    simp only [runOps]
    exact ih _ (applyOp_gesture_bound room op h)

theorem move_alerts_spec (room : Room) (uid : String) (x y z rx ry rz : ℚ)
    (hprox : room.proximity_chat_enabled = true)
    (hmem : (dictGet room.participants uid).isSome = true) :
    (update_participant_position room uid x y z rx ry rz).alerts =
      (room.participants.filter fun q => q.1 ≠ uid).filterMap fun q =>
        if distSq ⟨x, y, z, rx, ry, rz⟩ q.2.vr_position < 9 then
          some { user1 := moverName room uid, user2 := q.2.name,
                 dist_sq := distSq ⟨x, y, z, rx, ry, rz⟩ q.2.vr_position }
        else none := by
  simp only [update_participant_position, check_proximity_interactions]
  rw [if_pos hmem]
  dsimp only
  have hfields := log_event_fields
    { room with participants := dictUpdate room.participants uid (posSetter ⟨x, y, z, rx, ry, rz⟩) }
    evPosition (EventData.positionUpdate uid ⟨x, y, z, rx, ry, rz⟩)
  have hprox2 : (log_event_for_ai
      { room with participants := dictUpdate room.participants uid (posSetter ⟨x, y, z, rx, ry, rz⟩) }
      evPosition (EventData.positionUpdate uid
        ⟨x, y, z, rx, ry, rz⟩)).proximity_chat_enabled = true := by
    rw [hfields.2.2.2.1]
    exact hprox
  rw [proximity_loop_alerts _ _ _ _ _ hprox2]
  have hparts : (log_event_for_ai
      { room with participants := dictUpdate room.participants uid (posSetter ⟨x, y, z, rx, ry, rz⟩) }
      evPosition (EventData.positionUpdate uid
        ⟨x, y, z, rx, ry, rz⟩)).participants =
      dictUpdate room.participants uid (posSetter ⟨x, y, z, rx, ry, rz⟩) :=
    hfields.1
  have hmn : moverName (log_event_for_ai
      { room with participants := dictUpdate room.participants uid (posSetter ⟨x, y, z, rx, ry, rz⟩) }
      evPosition (EventData.positionUpdate uid ⟨x, y, z, rx, ry, rz⟩))
      uid = moverName room uid := by
    unfold moverName
    rw [hparts, dictGet_dictUpdate]
    cases dictGet room.participants uid with
    | none => rfl
    | some p => rfl
  rw [hparts, hmn, filter_dictUpdate]

/-! ## Claim theorems -/

/-- Claim C9: the distance function of `VRPosition.distance_to` is the
Euclidean metric on the x, y, z coordinates (the rotation components are
ignored), and it satisfies distance(a,b) = distance(b,a) and
distance(a,a) = 0 for all positions. -/
theorem c9_distance_metric :
    (∀ x1 y1 z1 r1 s1 t1 x2 y2 z2 r2 s2 t2 : ℚ,
      distSq ⟨x1, y1, z1, r1, s1, t1⟩ ⟨x2, y2, z2, r2, s2, t2⟩ =
        (x1 - x2) ^ 2 + (y1 - y2) ^ 2 + (z1 - z2) ^ 2) ∧
    (∀ a b : VRPosition, distSq a b = distSq b a) ∧
    (∀ a b : VRPosition,
      Real.sqrt ((distSq a b : ℝ)) = Real.sqrt ((distSq b a : ℝ))) ∧
    (∀ a : VRPosition, distSq a a = 0) ∧
    (∀ a : VRPosition, Real.sqrt ((distSq a a : ℝ)) = 0) := by
  have hsymm : ∀ a b : VRPosition, distSq a b = distSq b a := by
    intro a b
    unfold distSq
    ring
  have hself : ∀ a : VRPosition, distSq a a = 0 := by
    intro a
    unfold distSq
    ring
  refine ⟨?_, hsymm, ?_, hself, ?_⟩
  · intro x1 y1 z1 r1 s1 t1 x2 y2 z2 r2 s2 t2
    rfl
  · intro a b
    rw [hsymm a b]
  · intro a
    rw [hself a]
    norm_num

/-- Claim C3: calling move (update of a participant position) with an id
absent from the registry fails (the method returns False) and leaves the
room state entirely unchanged: no position changes, no transcript entry is
appended, no proximity evaluation happens (no alert is emitted). -/
theorem c3_unknown_move_noop (room : Room) (uid : String)
    (x y z rx ry rz : ℚ) (h : dictGet room.participants uid = none) :
    update_participant_position room uid x y z rx ry rz =
      { room := room, ok := false, alerts := [] } := by
  simp only [update_participant_position]
  rw [h]
  rfl

theorem c3_unknown_move_noop_witness :
    update_participant_position (initRoom ("r") ("demo")) ("ghost") 1 2 3
      0 0 0 =
      { room := initRoom ("r") ("demo"), ok := false, alerts := [] } :=
  c3_unknown_move_noop (initRoom ("r") ("demo")) ("ghost") 1 2 3 0 0 0 rfl

/-- Claim C4: logEvent appends exactly one transcript entry iff at least one
of the moderation, note-taking, recording flags is enabled at call time;
with all three disabled the call is a no-op; and the moderation log changes
only when moderation is enabled and the event type equals the chat type, in
which case it is exactly the moderation check's result on the appended
entry. -/
theorem c4_log_event_gating (room : Room) (t : String) (d : EventData) :
    ((log_event_for_ai room t d).session_transcript =
      if anyAIFlag room then
        room.session_transcript ++ [{ etype := t, data := d }]
      else room.session_transcript) ∧
    (anyAIFlag room = false → log_event_for_ai room t d = room) ∧
    ((log_event_for_ai room t d).moderation_log =
      if anyAIFlag room ∧ room.ai_moderation_enabled = true ∧ t = evChat then
        (check_moderation
          { room with session_transcript :=
              room.session_transcript ++ [{ etype := t, data := d }] }
          { etype := t, data := d }).moderation_log
      else room.moderation_log) := by
  refine ⟨log_event_transcript room t d, ?_, ?_⟩
  · intro hf
    simp [log_event_for_ai, hf]
  · by_cases hf : anyAIFlag room = true
    · simp only [log_event_for_ai, if_pos hf]
      by_cases hm : room.ai_moderation_enabled = true
      · rw [if_pos hm]
        by_cases hc : t = evChat
        · rw [if_pos ⟨hf, hm, hc⟩]
        · rw [check_moderation_not_chat _ _ hc,
            if_neg (fun hand => hc hand.2.2)]
      · rw [if_neg hm, if_neg (fun hand => hm hand.2.1)]
    · simp only [log_event_for_ai, if_neg hf]
      rw [if_neg (fun hand => hf hand.1)]

def roomNoAI : Room :=
  { initRoom ("r0") ("quiet") with
      ai_moderation_enabled := false
      ai_note_taking_enabled := false }

theorem c4_log_event_gating_witness :
    log_event_for_ai roomNoAI evChat (EventData.chat ("u") ("hello")) =
      roomNoAI :=
  (c4_log_event_gating roomNoAI evChat (EventData.chat ("u") ("hello"))).2.1
    (by decide)

/-- Claim C5: with moderation enabled, a logged chat event whose lowered
message contains at least one denylist phrase appends exactly one
ModerationRecord, with warning action and the fixed toxicity reason (one
record per message even when several phrases match); a chat message that
matches no phrase, and any non-chat event, appends zero moderation
records. -/
theorem c5_moderation_single_record (room : Room) (uid msg : String)
    (hm : room.ai_moderation_enabled = true) :
    ((toxic_keywords.any fun w => containsWord (lowerStr msg) w) = true →
      (log_event_for_ai room evChat (EventData.chat uid msg)).moderation_log =
        room.moderation_log ++
          [{ user_id := uid, message := lowerStr msg,
             action := ModerationAction.warning, reason := toxicReason }]) ∧
    ((toxic_keywords.any fun w => containsWord (lowerStr msg) w) = false →
      (log_event_for_ai room evChat (EventData.chat uid msg)).moderation_log =
        room.moderation_log) ∧
    (∀ (t : String) (d : EventData), t ≠ evChat →
      (log_event_for_ai room t d).moderation_log = room.moderation_log) := by
  have hf : anyAIFlag room = true := by
    simp [anyAIFlag, hm]
  refine ⟨?_, ?_, fun t d ht => log_event_mod_log_of_ne room t d ht⟩
  · intro htox
    have htox' : (toxic_keywords.any fun w =>
        containsWord (lowerStr (EventData.chat uid msg).message) w) =
        true := htox
    simp only [log_event_for_ai, if_pos hf]
    rw [if_pos hm]
    simp only [check_moderation, if_true]
    rw [if_pos htox']
    rfl
  · intro htox
    have htox' : (toxic_keywords.any fun w =>
        containsWord (lowerStr (EventData.chat uid msg).message) w) =
        false := htox
    simp only [log_event_for_ai, if_pos hf]
    rw [if_pos hm]
    simp only [check_moderation, if_true]
    rw [if_neg (fun h1 => Bool.false_ne_true (htox' ▸ h1))]

theorem c5_moderation_single_record_witness :
    (log_event_for_ai (initRoom ("r") ("m")) evChat
      (EventData.chat ("u1") ("Oh SHUT UP, dumb bot"))).moderation_log =
      (initRoom ("r") ("m")).moderation_log ++
        [{ user_id := "u1", message := lowerStr ("Oh SHUT UP, dumb bot"),
           action := ModerationAction.warning, reason := toxicReason }] :=
  (c5_moderation_single_record (initRoom ("r") ("m")) ("u1")
    ("Oh SHUT UP, dumb bot") rfl).1 (by decide)

/-- Claim C8: saving a recording while the session transcript is empty
substitutes exactly one placeholder entry of type info for the transcript
field (never an empty array); a non-empty transcript is written as-is. -/
theorem c8_save_placeholder (room : Room) :
    (room.session_transcript = [] →
      (handle_save_recording room).transcript =
        [{ etype := evInfo, data := EventData.info noEventsMsg }] ∧
      (handle_save_recording room).transcript.length = 1 ∧
      (handle_save_recording room).transcript.map TranscriptEntry.etype =
        [evInfo]) ∧
    (room.session_transcript ≠ [] →
      (handle_save_recording room).transcript = room.session_transcript) := by
  constructor
  · intro h
    have hE : room.session_transcript.isEmpty = true := by
      rw [h]
      rfl
    refine ⟨?_, ?_, ?_⟩ <;> simp [handle_save_recording, hE]
  · intro h
    have hE : room.session_transcript.isEmpty = false := by
      cases hT : room.session_transcript with
      | nil => exact absurd hT h
      | cons a l => rfl
    simp [handle_save_recording, hE]

def roomWithEntry : Room :=
  { initRoom ("r2") ("busy") with
      session_transcript :=
        [{ etype := evInfo, data := EventData.info recStartedMsg }] }

theorem c8_save_placeholder_witness :
    (handle_save_recording (initRoom ("r") ("fresh"))).transcript =
      [{ etype := evInfo, data := EventData.info noEventsMsg }] ∧
    (handle_save_recording roomWithEntry).transcript =
      roomWithEntry.session_transcript :=
  ⟨((c8_save_placeholder (initRoom ("r") ("fresh"))).1 rfl).1,
   (c8_save_placeholder roomWithEntry).2 (by decide)⟩

/-- Claim C10: none of the modelled operations (join, move, gesture,
recording toggle, and the proximity evaluation run inside move) ever logs an
event of the chat type, and the moderation check acts only on chat entries;
hence the moderation log of a room obtained by any sequence of modelled
operations from the initial state stays empty. -/
theorem c10_no_chat_no_moderation :
    (∀ (rid rname : String) (ops : List Op),
      (runOps (initRoom rid rname) ops).moderation_log = []) ∧
    (∀ (room : Room) (op : Op),
      (applyOp room op).moderation_log = room.moderation_log) ∧
    (∀ (room : Room) (e : TranscriptEntry), e.etype ≠ evChat →
      check_moderation room e = room) := by
  refine ⟨?_, applyOp_moderation_log, check_moderation_not_chat⟩
  intro rid rname ops
  rw [runOps_moderation_log]
  rfl

theorem c10_no_chat_no_moderation_witness :
    check_moderation (initRoom ("r") ("w"))
      { etype := evInfo, data := EventData.info recStartedMsg } =
      initRoom ("r") ("w") :=
  c10_no_chat_no_moderation.2.2 _ _ (by decide)

/-- Claim C7: the session starts inactive with no start time; the first
join from the inactive state activates the room and records the start time;
and once active, no modelled operation deactivates the room or overwrites
the start time. -/
theorem c7_one_way_activation :
    (∀ rid rname : String, (initRoom rid rname).is_active = false ∧
      (initRoom rid rname).start_time = none) ∧
    (∀ (room : Room) (uid name : String) (lang : Language) (x y z : ℚ)
      (now : Nat), room.is_active = false →
      (add_participant room uid name lang x y z now).is_active = true ∧
      (add_participant room uid name lang x y z now).start_time =
        some now) ∧
    (∀ (room : Room) (op : Op), room.is_active = true →
      (applyOp room op).is_active = true ∧
      (applyOp room op).start_time = room.start_time) :=
  ⟨fun _ _ => ⟨rfl, rfl⟩, add_participant_activates, applyOp_active_mono⟩

theorem c7_one_way_activation_witness :
    (add_participant (initRoom ("r") ("w")) ("a") ("Alice") Language.english
      0 0 0 7).is_active = true ∧
    (add_participant (initRoom ("r") ("w")) ("a") ("Alice") Language.english
      0 0 0 7).start_time = some 7 ∧
    (applyOp (add_participant (initRoom ("r") ("w")) ("a") ("Alice")
      Language.english 0 0 0 7) (Op.toggleRec 9)).start_time = some 7 :=
  ⟨(c7_one_way_activation.2.1 _ _ _ Language.english 0 0 0 7 rfl).1,
   (c7_one_way_activation.2.1 _ _ _ Language.english 0 0 0 7 rfl).2,
   by
    rw [(c7_one_way_activation.2.2 _ (Op.toggleRec 9) (by decide)).2]
    exact (c7_one_way_activation.2.1 _ ("a") ("Alice") Language.english
      0 0 0 7 rfl).2⟩

/-- Claim C6: in every room reachable from the initial state by modelled
operations, every participant's recent-gesture history has length at most
five; a gesture appends at the end of the history and keeps only the last
five entries, so below the cap the history just grows at the tail, and at
the cap the oldest entry is evicted with the relative order of the rest
preserved. -/
theorem c6_recent_gestures_bound :
    (∀ (rid rname : String) (ops : List Op),
      ∀ q ∈ (runOps (initRoom rid rname) ops).participants,
        q.2.recent_gestures.length ≤ 5) ∧
    (∀ (room : Room) (uid gesture_type hand : String) (intensity : ℚ),
      (perform_gesture room uid gesture_type hand intensity).1.participants =
        dictUpdate room.participants uid fun p =>
          { p with
            recent_gestures := takeLast 5
              (p.recent_gestures ++ [mkGesture gesture_type hand intensity])
            is_speaking := true }) ∧
    (∀ (h : List VRGesture) (g : VRGesture), h.length < 5 →
      takeLast 5 (h ++ [g]) = h ++ [g]) ∧
    (∀ (h : List VRGesture) (g : VRGesture), h.length = 5 →
      takeLast 5 (h ++ [g]) = h.tail ++ [g]) := by
  refine ⟨?_, perform_gesture_participants, ?_, ?_⟩
  · intro rid rname ops q hq
    refine runOps_gesture_bound ops (initRoom rid rname) ?_ q hq
    intro q0 hq0
    exact absurd hq0 (List.not_mem_nil q0)
  · intro h g hlen
    apply takeLast_of_length_le
    rw [List.length_append]
    simp
    omega
  · intro h g hlen
    unfold takeLast
    have h6 : (h ++ [g]).length - 5 = 1 := by
      rw [List.length_append, hlen]
      rfl
    rw [h6, List.drop_append_of_le_length (by omega), List.drop_one]

theorem c6_recent_gestures_bound_witness :
    takeLast 5 ([mkGesture ("wave") ("right") 1] ++
        [mkGesture ("clap") ("left") 1]) =
      [mkGesture ("wave") ("right") 1] ++ [mkGesture ("clap") ("left") 1] ∧
    takeLast 5 (List.replicate 5 (mkGesture ("wave") ("right") 1) ++
        [mkGesture ("clap") ("left") 1]) =
      (List.replicate 5 (mkGesture ("wave") ("right") 1)).tail ++
        [mkGesture ("clap") ("left") 1] :=
  ⟨c6_recent_gestures_bound.2.2.1 _ _ (by decide),
   c6_recent_gestures_bound.2.2.2 _ _ (by decide)⟩

/-! Scenario rooms: a joins at (-4,0,0), then a duplicate join re-uses the
id a (claim C1), and for claim C2 a second room with b at (4,0,0) and the
spec's move sequence for b. -/

def dRoom0 : Room := initRoom ("r1") ("dup")

def dRoom1 : Room :=
  add_participant dRoom0 ("a") ("Alice") Language.english 1 0 0 0

def dRoom2 : Room :=
  add_participant dRoom1 ("a") ("Bob") Language.turkish 2 0 0 1

/-- Counterexample to claim C1 as stated: the source's add_participant never
checks for a duplicate id (it performs a plain dictionary assignment), so
re-adding the already-present id a does not fail and replaces the stored
participant's state (Alice's entry becomes the freshly built Bob entry),
while the participant count stays unchanged. -/
theorem c1_counterexample :
    dictGet dRoom2.participants ("a") ≠ dictGet dRoom1.participants ("a") ∧
    dictGet dRoom2.participants ("a") =
      some (mkParticipant dRoom1 ("a") ("Bob") Language.turkish 2 0 0) ∧
    dRoom2.participants.length = dRoom1.participants.length :=
  ⟨by decide, by decide, by decide⟩

/-- Claim C1 as amended: a join with an id already present in the registry
does not fail; it overwrites that id's registry entry in place with a
freshly constructed participant built from the new arguments, leaving the
participant count and the key sequence unchanged. -/
theorem c1_dup_overwrite (room : Room) (uid name : String) (lang : Language)
    (x y z : ℚ) (now : Nat)
    (h : (dictGet room.participants uid).isSome = true) :
    dictGet (add_participant room uid name lang x y z now).participants uid =
      some (mkParticipant room uid name lang x y z) ∧
    (add_participant room uid name lang x y z now).participants.length =
      room.participants.length ∧
    (add_participant room uid name lang x y z now).participants.map
      Prod.fst = room.participants.map Prod.fst := by
  rw [add_participant_participants]
  exact ⟨dictGet_dictSet_self _ _ _, dictSet_length_of_mem _ _ _ h,
    dictSet_keys_of_mem _ _ _ h⟩

theorem c1_dup_overwrite_witness :
    dictGet dRoom2.participants ("a") =
      some (mkParticipant dRoom1 ("a") ("Bob") Language.turkish 2 0 0) ∧
    dRoom2.participants.length = dRoom1.participants.length :=
  ⟨(c1_dup_overwrite dRoom1 ("a") ("Bob") Language.turkish 2 0 0 1
      (by decide)).1,
   (c1_dup_overwrite dRoom1 ("a") ("Bob") Language.turkish 2 0 0 1
      (by decide)).2.1⟩

def sRoom0 : Room := initRoom ("room1") ("demo")

def sRoom1 : Room :=
  add_participant sRoom0 ("a") ("Alice") Language.english (-4) 0 0 0

def sRoom2 : Room :=
  add_participant sRoom1 ("b") ("Bob") Language.turkish 4 0 0 1

def sMove1 : MoveResult :=
  update_participant_position sRoom2 ("b") 1 0 0 0 0 0

def sMove2 : MoveResult :=
  update_participant_position sMove1.room ("b") (-3) 0 0 0 0 0

def sMove3 : MoveResult :=
  update_participant_position sMove2.room ("b") (-3) 0 1 0 0 0

/-- Claim C2: on a move of a present participant (with proximity chat
enabled, as it is in every reachable room), a proximity alert is emitted for
exactly those other participants whose current position is at squared
distance below nine from the mover's new position — equivalently, whose
Euclidean distance (the square root the source compares against 3.0) is
strictly below three; the evaluation is from scratch on every move with no
deduplication.  In the spec's scenario with a at (-4,0,0) and b at (4,0,0):
moving b to (1,0,0) emits nothing (distance 5), moving b to (-3,0,0) emits
exactly one alert for the pair (distance 1), and a further move of b while
still in range (to (-3,0,1), distance sqrt 2) re-fires exactly one alert. -/
theorem c2_proximity_iff :
    (∀ (room : Room) (uid : String) (x y z rx ry rz : ℚ),
      room.proximity_chat_enabled = true →
      (dictGet room.participants uid).isSome = true →
      (update_participant_position room uid x y z rx ry rz).alerts =
        (room.participants.filter fun q => q.1 ≠ uid).filterMap fun q =>
          if distSq ⟨x, y, z, rx, ry, rz⟩ q.2.vr_position < 9 then
            some { user1 := moverName room uid, user2 := q.2.name,
                   dist_sq := distSq ⟨x, y, z, rx, ry, rz⟩ q.2.vr_position }
          else none) ∧
    (∀ a b : VRPosition,
      distSq a b < 9 ↔ Real.sqrt ((distSq a b : ℝ)) < 3) ∧
    (∀ (rid rname : String) (ops : List Op),
      (runOps (initRoom rid rname) ops).proximity_chat_enabled = true) ∧
    sMove1.alerts = [] ∧
    sMove2.alerts = [{ user1 := "Bob", user2 := "Alice", dist_sq := 1 }] ∧
    sMove3.alerts = [{ user1 := "Bob", user2 := "Alice", dist_sq := 2 }] := by
  have d1 : ¬ (distSq ⟨1, 0, 0, 0, 0, 0⟩ ⟨-4, 0, 0, 0, 0, 0⟩ < 9) := by
    norm_num [distSq]
  have d2 : distSq ⟨-3, 0, 0, 0, 0, 0⟩ ⟨-4, 0, 0, 0, 0, 0⟩ < 9 := by
    norm_num [distSq]
  have e2 : distSq ⟨-3, 0, 0, 0, 0, 0⟩ ⟨-4, 0, 0, 0, 0, 0⟩ = 1 := by
    norm_num [distSq]
  have d3 : distSq ⟨-3, 0, 1, 0, 0, 0⟩ ⟨-4, 0, 0, 0, 0, 0⟩ < 9 := by
    norm_num [distSq]
  have e3 : distSq ⟨-3, 0, 1, 0, 0, 0⟩ ⟨-4, 0, 0, 0, 0, 0⟩ = 2 := by
    norm_num [distSq]
  have f3 : (2 : ℚ) < 9 := by norm_num
  refine ⟨move_alerts_spec, ?_, ?_, ?_, ?_, ?_⟩
  · intro a b
    rw [Real.sqrt_lt' (by norm_num : (0:ℝ) < 3),
      show ((3:ℝ) ^ 2) = ((9:ℚ) : ℝ) from by norm_num]
    constructor
    · intro h
      exact_mod_cast h
    · intro h
      exact_mod_cast h
  · intro rid rname ops
    rw [runOps_prox_flag]
    rfl
  · simp [sMove1, sRoom2, sRoom1, sRoom0, update_participant_position,
      check_proximity_interactions, proximity_loop, add_participant, initRoom,
      mkParticipant, log_event_for_ai, anyAIFlag, check_moderation, dictGet,
      dictSet, dictUpdate, posSetter, moverName, evChat, evJoined,
      evPosition, evProximity, Language.value, d1]
  · simp [sMove2, sMove1, sRoom2, sRoom1, sRoom0, update_participant_position,
      check_proximity_interactions, proximity_loop, add_participant, initRoom,
      mkParticipant, log_event_for_ai, anyAIFlag, check_moderation, dictGet,
      dictSet, dictUpdate, posSetter, moverName, evChat, evJoined,
      evPosition, evProximity, Language.value, d1, d2, e2]
  · simp [sMove3, sMove2, sMove1, sRoom2, sRoom1, sRoom0,
      update_participant_position, check_proximity_interactions,
      proximity_loop, add_participant, initRoom, mkParticipant,
      log_event_for_ai, anyAIFlag, check_moderation, dictGet, dictSet,
      dictUpdate, posSetter, moverName, evChat, evJoined, evPosition,
      evProximity, Language.value, d1, d2, e2, d3, e3, f3]

theorem c2_proximity_iff_witness :
    (update_participant_position sRoom2 ("b") (-3) 0 0 0 0 0).alerts =
      (sRoom2.participants.filter fun q => q.1 ≠ "b").filterMap (fun q =>
        if distSq ⟨-3, 0, 0, 0, 0, 0⟩ q.2.vr_position < 9 then
          some { user1 := moverName sRoom2 ("b"), user2 := q.2.name,
                 dist_sq := distSq ⟨-3, 0, 0, 0, 0, 0⟩ q.2.vr_position }
        else none) ∧
    (distSq ⟨0, 0, 0, 0, 0, 0⟩ ⟨1, 2, 2, 0, 0, 0⟩ < 9 ↔
      Real.sqrt ((distSq ⟨0, 0, 0, 0, 0, 0⟩ ⟨1, 2, 2, 0, 0, 0⟩ : ℝ)) < 3) :=
  ⟨c2_proximity_iff.1 sRoom2 ("b") (-3) 0 0 0 0 0 (by decide) (by decide),
   c2_proximity_iff.2.1 ⟨0, 0, 0, 0, 0, 0⟩ ⟨1, 2, 2, 0, 0, 0⟩⟩

end VR
